import Mathlib

/-!
Verification development for the mcpshim repository (Go daemon + CLI that
bridges local commands to remote MCP servers).  The Go sources are embedded
shallowly: pure functions become Lean functions, map values become
association lists, machine integers become `Int`/`Nat`, fallible code
returns `Except`/`Option`.  File/network/database effects are factored out
as explicit parameters (e.g. the SQLite `call_history` table is a list of
rows, the process environment is a `String → String` function), so every
definition is executable and the theorems below quantify over those inputs.
-/

deriving instance DecidableEq for Except

namespace Mcpshim

/-! ## Go string primitives used by the sources

`goToLower`, `goTrimSpace` model `strings.ToLower` / `strings.TrimSpace`
restricted to ASCII (the transport keywords and header names the code
compares against are all ASCII; Go's extra Unicode case/space handling is
out of scope).  `canonicalHeaderKey` models `net/http.CanonicalHeaderKey`
including its invalid-byte bail-out.  String order `goLe` is byte-wise
lexicographic order, which for UTF-8 agrees with codepoint-wise order. -/

def asciiToLower (c : Char) : Char :=
  if 'A' ≤ c ∧ c ≤ 'Z' then Char.ofNat (c.toNat + 32) else c

def asciiToUpper (c : Char) : Char :=
  if 'a' ≤ c ∧ c ≤ 'z' then Char.ofNat (c.toNat - 32) else c

def goToLower (s : String) : String :=
  String.mk (s.data.map asciiToLower)

def goIsSpace (c : Char) : Bool :=
  c = ' ' ∨ c = '\t' ∨ c = '\n' ∨ c = '\x0b' ∨ c = '\x0c' ∨ c = '\r'

def goTrimSpace (s : String) : String :=
  String.mk (((s.data.dropWhile goIsSpace).reverse.dropWhile goIsSpace).reverse)

def charLe (a b : Char) : Bool := decide (a ≤ b)

def lexLe : List Char → List Char → Bool
  | [], _ => true
  | _ :: _, [] => false
  | a :: as, b :: bs => if a = b then lexLe as bs else charLe a b

def goLe (a b : String) : Bool := lexLe a.data b.data

/-- Character class of `net/textproto`'s `validHeaderFieldByte`: ASCII
letters, digits and the token punctuation `! # $ % & ' * + - . ^ _ ` | ~`
(given by codepoint below). -/
def isHeaderTokenChar (c : Char) : Bool :=
  let n := c.toNat
  (48 ≤ n ∧ n ≤ 57) ∨ (65 ≤ n ∧ n ≤ 90) ∨ (97 ≤ n ∧ n ≤ 122) ∨
    (n = 33 ∨ n = 35 ∨ n = 36 ∨ n = 37 ∨ n = 38 ∨ n = 39 ∨ n = 42 ∨
     n = 43 ∨ n = 45 ∨ n = 46 ∨ n = 94 ∨ n = 95 ∨ n = 96 ∨ n = 124 ∨ n = 126)

/-- Casing pass of `canonicalMIMEHeaderKey`: uppercase the first letter and
every letter following a dash, lowercase the rest. -/
def canonicalLoop : Bool → List Char → List Char
  | _, [] => []
  | upper, c :: rest =>
    let c' :=
      if upper ∧ 'a' ≤ c ∧ c ≤ 'z' then asciiToUpper c
      else if ¬ upper ∧ 'A' ≤ c ∧ c ≤ 'Z' then asciiToLower c
      else c
    c' :: canonicalLoop (c' = '-') rest

/-- Models `net/http.CanonicalHeaderKey`: a key containing a byte that is
not a valid header-field byte is returned unchanged, otherwise it is
canonicalized to MIME form. -/
def canonicalHeaderKey (s : String) : String :=
  if s.data.all isHeaderTokenChar then String.mk (canonicalLoop true s.data) else s

/-! ## os.Expand / os.ExpandEnv

Faithful translation of Go's `os.Expand` (`os/env.go`): `$var` and
`${var}` references, shell special single-character variables, invalid
`${` syntax eaten, a `$` not followed by a name left literal.
`os.ExpandEnv` maps the name through the process environment, which
returns the empty string for unset variables; the environment is passed
in as a function `String → String`. -/

def isShellSpecialVar (c : Char) : Bool :=
  c = '*' ∨ c = '#' ∨ c = '$' ∨ c = '@' ∨ c = '!' ∨ c = '?' ∨ ('0' ≤ c ∧ c ≤ '9')

def isAlphaNumUnd (c : Char) : Bool :=
  c = '_' ∨ ('0' ≤ c ∧ c ≤ '9') ∨ ('a' ≤ c ∧ c ≤ 'z') ∨ ('A' ≤ c ∧ c ≤ 'Z')

/-- Models Go's `getShellName`, applied to the characters following a `$`.
Returns the referenced name and the number of characters consumed. -/
def getShellName (s : List Char) : String × Nat :=
  match s with
  | [] => ("", 0)
  | '{' :: rest =>
    match rest.findIdx? (fun c => c = '}') with
    | some 0 => ("", 2)
    | some i => (String.mk (rest.take i), i + 2)
    | none => ("", 1)
  | c :: _ =>
    if isShellSpecialVar c then (String.mk [c], 1)
    else
      let run := s.takeWhile isAlphaNumUnd
      (String.mk run, run.length)

/-- Scanning loop of `os.Expand`.  The recursion is fueled so that it is
structural (and hence computes inside the kernel); every step consumes at
least one character, so `fuel = length of the input` never exhausts and
the `0` case is unreachable. -/
def goExpandFuel (mapping : String → String) : Nat → List Char → List Char
  | 0, l => l
  | _ + 1, [] => []
  | fuel + 1, c :: rest =>
    if c = '$' ∧ rest ≠ [] then
      let name := (getShellName rest).1
      let w := (getShellName rest).2
      if name = "" ∧ 0 < w then goExpandFuel mapping fuel (rest.drop w)
      else if name = "" then '$' :: goExpandFuel mapping fuel (rest.drop w)
      else (mapping name).data ++ goExpandFuel mapping fuel (rest.drop w)
    else c :: goExpandFuel mapping fuel rest

/-- Models `os.ExpandEnv` with the process environment `env` (an unset
variable maps to `""`, as `os.Getenv` does). -/
def osExpandEnv (env : String → String) (s : String) : String :=
  String.mk (goExpandFuel env s.data.length s.data)

/-! ## Configuration data model (internal/config/config.go)

Go maps (`headers`) are modeled as association lists keyed by the header
name. -/

structure MCPServer where
  name : String
  aliasName : String
  url : String
  transport : String
  headers : List (String × String)
  command : List String
  env : List String
deriving DecidableEq, Repr

structure ServerConfig where
  socketPath : String
  dbPath : String
deriving DecidableEq, Repr

structure Config where
  server : ServerConfig
  servers : List MCPServer
deriving DecidableEq, Repr

/-- Models `normalizeTransport` (config.go:35-46). -/
def normalizeTransport (value : String) : Except String String :=
  let v := goToLower (goTrimSpace value)
  if v = "" ∨ v = "http" ∨ v = "streamable-http" then .ok "http"
  else if v = "sse" then .ok "sse"
  else if v = "stdio" then .ok "stdio"
  else .error ("unsupported transport \"" ++ value ++ "\" (expected http, sse, or stdio)")

/-- Loop body of `validate` (config.go:179-213), carrying the `seen` and
`aliases` sets as lists of already-seen names. -/
def validateServers : List String → List String → List MCPServer → Except String Unit
  | _, _, [] => .ok ()
  | seen, aliases, s :: rest =>
    if s.name = "" then .error "server name is required"
    else
      match normalizeTransport s.transport with
      | .error e => .error ("server \"" ++ s.name ++ "\": " ++ e)
      | .ok transport =>
        if transport = "stdio" ∧ s.command = [] then
          .error ("server \"" ++ s.name ++ "\" command is required for stdio transport")
        else if transport ≠ "stdio" ∧ s.url = "" then
          .error ("server \"" ++ s.name ++ "\" url is required")
        else if seen.contains s.name then
          .error ("duplicate server name \"" ++ s.name ++ "\"")
        else
          let aliasValue := if s.aliasName = "" then s.name else s.aliasName
          if aliases.contains aliasValue then
            .error ("duplicate alias \"" ++ aliasValue ++ "\"")
          else
            validateServers (s.name :: seen) (aliasValue :: aliases) rest

/-- Models `validate` (config.go:179-213). -/
def validate (cfg : Config) : Except String Unit :=
  validateServers [] [] cfg.servers

/-- Per-server transformation applied by `Load` (config.go:100-122):
environment expansion of url, header values, command and env entries,
transport normalization, alias defaulting. -/
def loadServer (env : String → String) (s : MCPServer) : Except String MCPServer :=
  let url := osExpandEnv env s.url
  let headers := s.headers.map (fun kv => (kv.1, osExpandEnv env kv.2))
  let command := s.command.map (osExpandEnv env)
  let envList := s.env.map (osExpandEnv env)
  match normalizeTransport s.transport with
  | .error e => .error e
  | .ok transport =>
    .ok { name := s.name
          aliasName := if s.aliasName = "" then s.name else s.aliasName
          url := url
          transport := transport
          headers := headers
          command := command
          env := envList }

def loadServerList (env : String → String) : List MCPServer → Except String (List MCPServer)
  | [] => .ok []
  | s :: rest =>
    match loadServer env s with
    | .error e => .error e
    | .ok s' =>
      match loadServerList env rest with
      | .error e => .error e
      | .ok rest' => .ok (s' :: rest')

/-- Models `Load` (config.go:83-127) after YAML decoding, which is the
identity on the stored `Config` record (the struct is plain data and
unknown fields are rejected).  `defaults` carries the results of
`DefaultSocketPath`/`DefaultDBPath`, which depend only on the process
environment. -/
def Load (env : String → String) (defaults : ServerConfig) (fileCfg : Config) :
    Except String Config :=
  let socketPath :=
    if fileCfg.server.socketPath = "" then defaults.socketPath else fileCfg.server.socketPath
  let dbPath :=
    if fileCfg.server.dbPath = "" then defaults.dbPath else fileCfg.server.dbPath
  match loadServerList env fileCfg.servers with
  | .error e => .error e
  | .ok servers =>
    let cfg : Config := ⟨⟨socketPath, dbPath⟩, servers⟩
    match validate cfg with
    | .error e => .error e
    | .ok _ => .ok cfg

/-- Models `Save` (config.go:129-156): validate, marshal (identity on the
record), write to a temp file, re-`Load` the temp file to validate, then
rename.  On success it returns the file content that was written, i.e. the
marshaled input config. -/
def Save (env : String → String) (defaults : ServerConfig) (cfg : Config) :
    Except String Config :=
  match validate cfg with
  | .error e => .error e
  | .ok _ =>
    match Load env defaults cfg with
    | .error e => .error ("resulting config is invalid: " ++ e)
    | .ok _ => .ok cfg

/-- A `Save` immediately followed by a `Load` of the same path, the
round trip of claim C7. -/
def saveThenLoad (env : String → String) (defaults : ServerConfig) (cfg : Config) :
    Except String Config :=
  match Save env defaults cfg with
  | .error e => .error e
  | .ok written => Load env defaults written

/-- Replace-or-append loop of `UpsertServer` (config.go:224-230). -/
def upsertIntoList : List MCPServer → MCPServer → List MCPServer
  | [], item => [item]
  | s :: rest, item =>
    if s.name = item.name then item :: rest else s :: upsertIntoList rest item

/-- Models `UpsertServer` (config.go:215-231): a transport the normalizer
rejects is silently coerced to "http", the alias defaults to the name, and
the item replaces the server of the same name or is appended. -/
def UpsertServer (cfg : Config) (item : MCPServer) : Config :=
  let transport :=
    match normalizeTransport item.transport with
    | .ok t => t
    | .error _ => "http"
  let item1 := { item with transport := transport }
  let item2 := if item1.aliasName = "" then { item1 with aliasName := item1.name } else item1
  { cfg with servers := upsertIntoList cfg.servers item2 }

/-! ## Protocol types (internal/protocol/protocol.go)

JSON argument values are modeled by a small value type `JsonVal`; the
history and call paths treat `args` as opaque data, so this is enough to
express the claims.  Time instants are Nat nanoseconds since the epoch
(`time.Time` values on the call path only flow into `at` and into
`time.Since`, both order-theoretic). -/

inductive JsonVal where
  | str (s : String)
  | num (n : Int)
  | boolean (b : Bool)
  | null
deriving DecidableEq, Repr

structure HistoryItem where
  atTime : Nat
  server : String
  tool : String
  args : List (String × JsonVal)
  success : Bool
  error : String
  durationMs : Int
deriving DecidableEq, Repr

structure Request where
  action : String
  name : String
  server : String
  tool : String
  limit : Int
  aliasName : String
  url : String
  transport : String
  headers : List (String × String)
  command : List String
  env : List String
  args : List (String × JsonVal)
deriving DecidableEq, Repr

/-- Response envelope restricted to the fields the claims inspect
(`ok`, single-line `error`, `text`); payload fields are returned
separately by the handler models below. -/
structure Response where
  ok : Bool
  error : String
  text : String
deriving DecidableEq, Repr

/-! ## History store (internal/store/sqlite.go)

The `call_history` table is modeled as a list of rows in insertion order;
`id` is the `AUTOINCREMENT` primary key, so a well-formed table has
strictly increasing ids along the list.  Under that invariant the SQL
`ORDER BY id DESC` of the filtered rows is the reverse of the filtered
list and `LIMIT` is `take`. -/

structure HistoryRow where
  id : Nat
  item : HistoryItem
deriving DecidableEq, Repr

/-- The two sequential clamps at the top of `Store.ListHistory`
(sqlite.go:106-111). -/
def clampLimit (limit : Int) : Int :=
  let l := if limit ≤ 0 then 50 else limit
  if l > 500 then 500 else l

/-- WHERE clause of `Store.ListHistory` (sqlite.go:116-129): each filter
constrains only when non-empty. -/
def historyMatches (serverFilter toolFilter : String) (r : HistoryRow) : Bool :=
  (serverFilter = "" ∨ r.item.server = serverFilter) ∧
    (toolFilter = "" ∨ r.item.tool = toolFilter)

/-- Models `Store.ListHistory` (sqlite.go:105-182): clamp the limit, select
the matching rows `ORDER BY id DESC LIMIT ?`, scan them in that order, and
finally reverse the scanned slice in place (the swap loop at
sqlite.go:177-179). -/
def ListHistory (table : List HistoryRow) (serverFilter toolFilter : String)
    (limit : Int) : List HistoryRow :=
  let lim := clampLimit limit
  let selected := ((table.filter (historyMatches serverFilter toolFilter)).reverse).take lim.toNat
  selected.reverse

/-- Strictly increasing autoincrement ids along the table, the invariant
maintained by `InsertHistory` appending rows. -/
def idsAscending (l : List HistoryRow) : Prop :=
  List.Pairwise (fun a b => a.id < b.id) l

instance (l : List HistoryRow) : Decidable (idsAscending l) :=
  inferInstanceAs (Decidable (List.Pairwise _ l))

/-- The spec's "most-recent-first" reading of a history listing:
non-increasing recency (ids) along the returned list. -/
def mostRecentFirst (l : List HistoryRow) : Prop :=
  List.Pairwise (fun a b => b.id ≤ a.id) l

instance (l : List HistoryRow) : Decidable (mostRecentFirst l) :=
  inferInstanceAs (Decidable (List.Pairwise _ l))

/-! ## IPC router branches (internal/server/server.go) -/

/-- Models the `history` branch of `Server.handle` (server.go:149-158):
a non-positive requested limit defaults to 50 before the store call. -/
def handleHistory (table : List HistoryRow) (req : Request) : List HistoryRow :=
  let limit : Int := if req.limit ≤ 0 then 50 else req.limit
  ListHistory table req.server req.tool limit

/-- Models the `call` branch of `Server.handle` (server.go:170-193).
`callErr` is the outcome of `Registry.Call` (`none` = success, `some msg`
= the error message); `t0` and `t1` are the instants observed by
`time.Now()` at the start and by `time.Since` at completion.  The second
component lists the history rows the branch hands to `InsertHistory`. -/
def handleCall (req : Request) (callErr : Option String) (t0 t1 : Nat) :
    Response × List HistoryItem :=
  if req.server = "" ∨ req.tool = "" then
    (⟨false, "server and tool are required", ""⟩, [])
  else
    let item : HistoryItem :=
      { atTime := t0
        server := req.server
        tool := req.tool
        args := req.args
        success := callErr.isNone
        error :=
          match callErr with
          | some e => e
          | none => ""
        durationMs := Int.tdiv ((t1 : Int) - (t0 : Int)) 1000000 }
    match callErr with
    | some e => (⟨false, e, ""⟩, [item])
    | none => (⟨true, "", ""⟩, [item])

/-- The `config.MCPServer` literal built by the `add_server` branch
(server.go:208-216), with the transport already trimmed and lowercased. -/
def addServerItem (req : Request) : MCPServer :=
  { name := req.name
    aliasName := req.aliasName
    url := req.url
    transport := goToLower (goTrimSpace req.transport)
    headers := req.headers
    command := req.command
    env := req.env }

/-- Models the `add_server` branch of `Server.handle` (server.go:194-223)
up to the config persistence step; the registry refresh that follows is
I/O-only.  Note that `config.UpsertServer` mutates the in-memory config
before `Save` runs, so on a `Save` failure the returned state keeps the
mutated config (as the Go code does). -/
def handleAddServer (env : String → String) (defaults : ServerConfig)
    (cfg : Config) (req : Request) : Response × Config :=
  if req.name = "" then (⟨false, "name is required", ""⟩, cfg)
  else
    let transport := goToLower (goTrimSpace req.transport)
    if transport = "stdio" ∧ req.command = [] then
      (⟨false, "command is required for stdio transport", ""⟩, cfg)
    else if transport ≠ "stdio" ∧ req.url = "" then
      (⟨false, "url is required for http/sse transport", ""⟩, cfg)
    else
      let cfg2 := UpsertServer cfg (addServerItem req)
      match Save env defaults cfg2 with
      | .error e => (⟨false, e, ""⟩, cfg2)
      | .ok _ => (⟨true, "", "added server " ++ req.name⟩, cfg2)

/-- First configured server whose name or alias matches, as in
`findServer` (registry, src/unnamed/part_001:332-339). -/
def findServer (cfg : Config) (nameOrAlias : String) : Option MCPServer :=
  cfg.servers.find? (fun s => s.name = nameOrAlias ∨ s.aliasName = nameOrAlias)

/-! ## MCP client factory and registry login (src/unnamed/part_001) -/

/-- The kind of MCP client the factory hands back. -/
inductive ClientKind where
  | sse
  | streamableHttp
deriving DecidableEq, Repr

/-- Models `newClient` (src/unnamed/part_001:298-330).  The function
branches only on `transport == "sse"`; every other transport value takes
the `NewStreamableHttpClient` branch.  Library-side construction, whose
only failure mode is URL parsing inside mcp-go and which never yields a
"no command configured" error, is modeled as succeeding. -/
def newClient (s : MCPServer) : Except String ClientKind :=
  if s.transport = "sse" then .ok ClientKind.sse else .ok ClientKind.streamableHttp

/-- Models `newOAuthClient` (internal/mcp/oauth.go:330-352), which has the
same transport dispatch: `sse` or else streamable HTTP. -/
def newOAuthClientKind (s : MCPServer) : ClientKind :=
  if s.transport = "sse" then ClientKind.sse else ClientKind.streamableHttp

/-- What `Registry.Login` (src/unnamed/part_001:174-185) decides to do
before any I/O: fail on an unknown server, otherwise enter
`runOAuthLogin` with the resolved descriptor. -/
inductive LoginStep where
  | fail (msg : String)
  | runLoginFlow (s : MCPServer)
deriving DecidableEq, Repr

/-- Models `Registry.Login` (src/unnamed/part_001:174-185); `%q` is
modeled as double-quoting (the names involved need no escaping). -/
def loginAction (cfg : Config) (server : String) : LoginStep :=
  match findServer cfg server with
  | none => LoginStep.fail ("unknown server \"" ++ server ++ "\"")
  | some s => LoginStep.runLoginFlow s

/-! ## OAuth fallback engine (internal/mcp/oauth.go) -/

/-- A Go error value as the fallback logic observes it: its message and
whether `errors.Is(err, transport.ErrUnauthorized)` holds. -/
structure GoError where
  message : String
  wrapsUnauthorized : Bool
deriving DecidableEq, Repr

/-- Models `hasAuthorizationHeader` (oauth.go:157-164). -/
def hasAuthorizationHeader (headers : List (String × String)) : Bool :=
  headers.any (fun kv => canonicalHeaderKey kv.1 = "Authorization")

/-- Models `shouldTryOAuthFallback` (oauth.go:144-155) with its early
returns in source order. -/
def shouldTryOAuthFallback (s : MCPServer) (err : Option GoError) : Bool :=
  match err with
  | none => false
  | some e =>
    if s.transport = "stdio" then false
    else if hasAuthorizationHeader s.headers then false
    else e.wrapsUnauthorized

/-- Outcome of the first guard of `runWithOAuthFallback` (oauth.go:28-31):
either the direct attempt's result/error is returned unchanged, or the
engine proceeds to retry through an OAuth-wrapped client. -/
inductive FallbackStep (T : Type) where
  | finish (result : T) (err : Option GoError)
  | retryWithOAuth
deriving DecidableEq, Repr

/-- Models `runWithOAuthFallback`'s decision after the direct attempt
(oauth.go:28-31): `if err == nil || !shouldTryOAuthFallback(s, err)`
return `(result, err)` unchanged, otherwise continue into the wrapped
retry. -/
def fallbackDecision {T : Type} (s : MCPServer) (result : T) (err : Option GoError) :
    FallbackStep T :=
  if err = none ∨ shouldTryOAuthFallback s err = false then
    FallbackStep.finish result err
  else
    FallbackStep.retryWithOAuth

/-! ## OAuth authorization completion (internal/mcp/oauth.go:220-328) -/

/-- Result of `completeOAuthFlow` as far as parameter handling goes:
either the code is exchanged via
`ProcessAuthorizationResponse(ctx, code, state, codeVerifier)`, or the
flow fails with an error message. -/
inductive OAuthOutcome where
  | exchange (code state verifier : String)
  | failed (msg : String)
deriving DecidableEq, Repr

/-- Go map indexing `params[key]` with the string zero value for a
missing key. -/
def getParam (params : List (String × String)) (key : String) : String :=
  match params.find? (fun kv => kv.1 = key) with
  | some kv => kv.2
  | none => ""

/-- The common tail of `completeOAuthFlow` acting on the callback or
manually pasted parameters (oauth.go:257-263 and oauth.go:280-286): a
non-empty `code` is exchanged first; otherwise a non-empty `error`
parameter fails the flow; otherwise the flow fails for lack of a code. -/
def finishOAuthParams (params : List (String × String)) (state codeVerifier : String) :
    OAuthOutcome :=
  let code := getParam params "code"
  if code ≠ "" then OAuthOutcome.exchange code state codeVerifier
  else
    let oauthError := getParam params "error"
    if oauthError ≠ "" then
      OAuthOutcome.failed ("oauth authorization failed: " ++ oauthError)
    else
      OAuthOutcome.failed "oauth authorization did not return a code"

/-- Automatic (callback) arm of `completeOAuthFlow` (oauth.go:270-286):
the state parameter must equal the generated state, then the parameters
are handled by the common tail. -/
def completeOAuthFlowAuto (params : List (String × String)) (state codeVerifier : String) :
    OAuthOutcome :=
  if getParam params "state" ≠ state then OAuthOutcome.failed "oauth state mismatch"
  else finishOAuthParams params state codeVerifier

/-- Manual arm: `readManualOAuthInput` (oauth.go:289-319) checks the state
only when a state parameter is present; on success the same common tail
runs (oauth.go:251-263). -/
def completeOAuthFlowManual (params : List (String × String)) (state codeVerifier : String) :
    OAuthOutcome :=
  let st := getParam params "state"
  if st ≠ "" ∧ st ≠ state then OAuthOutcome.failed "oauth state mismatch"
  else finishOAuthParams params state codeVerifier

/-! ## Tool schema parsing (src/unnamed/part_001:216-288)

The `interface{}` schema value is marshaled to JSON and back into the
struct below, so the embedding starts from the decoded struct: a
`required` array and a `properties` object (an association list with the
distinct keys of a Go map; `enum` entries and `const` are carried already
stringified, as `fmt.Sprintf("%v", ...)` produces them). -/

structure PropEntry where
  type : String
  enum : List String
  const : Option String
  description : String
deriving DecidableEq, Repr

structure InputSchema where
  required : List String
  properties : List (String × PropEntry)
deriving DecidableEq, Repr

structure PropertyDetail where
  name : String
  type : String
  enum : List String
  const : String
  description : String
  required : Bool
deriving DecidableEq, Repr

/-- Byte-wise lexicographic order on strings as a proposition (for valid
UTF-8 the byte order Go compares agrees with codepoint order). -/
def strLeProp (a b : String) : Prop := goLe a b = true

instance : DecidableRel strLeProp := fun a b =>
  inferInstanceAs (Decidable (goLe a b = true))

/-- Ascending `sort.Strings` order.  Go's sort is unstable, but string
keys that compare equal are identical, so the sorted arrangement is
unique and any correct sort computes it. -/
def sortStrings (l : List String) : List String :=
  List.insertionSort strLeProp l

/-- Models `parseSchema` (src/unnamed/part_001:216-235): the `required`
array as decoded, and the property names sorted ascending. -/
def parseSchema (schema : InputSchema) : List String × List String :=
  (schema.required, sortStrings (schema.properties.map (fun kv => kv.1)))

def lookupProp (props : List (String × PropEntry)) (key : String) : PropEntry :=
  match props.find? (fun kv => kv.1 = key) with
  | some kv => kv.2
  | none => ⟨"", [], none, ""⟩

/-- Models `parseSchemaDetail` (src/unnamed/part_001:237-288): sort the
property names, then emit one `PropertyDetail` per name in that order;
the `required` map built from `requiredList` answers membership. -/
def parseSchemaDetail (schema : InputSchema) (requiredList : List String) :
    List PropertyDetail :=
  let keys := sortStrings (schema.properties.map (fun kv => kv.1))
  keys.map (fun k =>
    let p := lookupProp schema.properties k
    { name := k
      type := p.type
      enum := p.enum
      const :=
        match p.const with
        | some v => v
        | none => ""
      description := p.description
      required := requiredList.contains k })

/-! ## Order facts about the byte-wise string order -/

lemma lexLe_total : ∀ a b : List Char, lexLe a b = true ∨ lexLe b a = true
  | [], _ => Or.inl rfl
  | _ :: _, [] => Or.inr rfl
  | a :: as, b :: bs => by
    by_cases hab : a = b
    · subst hab
      simpa [lexLe] using lexLe_total as bs
    · have hba : ¬ b = a := fun h => hab h.symm
      simp only [lexLe, if_neg hab, if_neg hba, charLe, decide_eq_true_eq]
      exact le_total a b

lemma lexLe_trans : ∀ a b c : List Char,
    lexLe a b = true → lexLe b c = true → lexLe a c = true
  | [], _, _, _, _ => rfl
  | _ :: _, [], _, h1, _ => by simp [lexLe] at h1
  | _ :: _, _ :: _, [], _, h2 => by simp [lexLe] at h2
  | a :: as, b :: bs, c :: cs, h1, h2 => by
    by_cases hab : a = b <;> by_cases hbc : b = c
    · subst hab
      subst hbc
      simp only [lexLe, if_pos rfl] at h1 h2 ⊢
      exact lexLe_trans as bs cs h1 h2
    · subst hab
      simp only [lexLe, if_pos rfl] at h1
      simp only [lexLe, if_neg hbc] at h2 ⊢
      exact h2
    · subst hbc
      simp only [lexLe, if_neg hab] at h1 ⊢
      exact h1
    · simp only [lexLe, if_neg hab] at h1
      simp only [lexLe, if_neg hbc] at h2
      have hac : ¬ a = c := by
        intro h
        subst h
        simp only [charLe, decide_eq_true_eq] at h1 h2
        exact hab (le_antisymm h1 h2)
      simp only [lexLe, if_neg hac, charLe, decide_eq_true_eq] at h1 h2 ⊢
      exact le_trans h1 h2

instance : IsTotal String strLeProp :=
  ⟨fun a b => lexLe_total a.data b.data⟩

instance : IsTrans String strLeProp :=
  ⟨fun a b c h1 h2 => lexLe_trans a.data b.data c.data h1 h2⟩

lemma sortStrings_sorted (l : List String) : List.Sorted strLeProp (sortStrings l) :=
  List.sorted_insertionSort strLeProp l

/-! ## Claims C1 and C2: the stdio gaps in the MCP factory and in Login -/

/-- C1.  The spec says `newClient` builds a subprocess MCP client for a
`stdio` descriptor and fails with "no command configured" when
`command[]` is empty or nil, never building an HTTP client for stdio.
The code in src/unnamed/part_001:298-330 has no stdio branch at all:
every non-`sse` transport, including `stdio` with an empty, nil or
populated command vector, succeeds with a streamable HTTP client.  This
contradicts the repository's own tests `TestNewClientRejectsEmptyCommand`
and `TestNewClientRejectsNilCommand` (internal/mcp/mcp_test.go:132-152),
which demand the "no command configured" error. -/
theorem C1_newClient_stdio_builds_http_client :
    newClient ⟨"empty", "", "", "stdio", [], [], []⟩ = .ok ClientKind.streamableHttp ∧
    newClient ⟨"nilcmd", "", "", "stdio", [], [], []⟩ = .ok ClientKind.streamableHttp ∧
    newClient ⟨"local", "", "", "stdio", [], ["echo"], []⟩ = .ok ClientKind.streamableHttp := by
  refine ⟨?_, ?_, ?_⟩ <;> rfl

/-- C2.  The spec says `Registry.Login` rejects `stdio` servers with an
error mentioning "stdio" before any login flow runs.  The code in
src/unnamed/part_001:174-185 only resolves the server and then enters
`runOAuthLogin` unconditionally, and `runOAuthLogin`
(internal/mcp/oauth.go:81-115) contains no transport check either — its
`newOAuthClient` puts a stdio descriptor on the streamable-HTTP branch.
This contradicts the repository's own test `TestLoginRejectsStdioServer`
(internal/mcp/mcp_test.go:104-118).  The theorem evaluates the login
dispatch at that test's configuration: the stdio server reaches the
OAuth login flow instead of being rejected. -/
theorem C2_login_enters_flow_for_stdio :
    loginAction ⟨⟨"", ""⟩, [⟨"local", "", "", "stdio", [], ["echo"], []⟩]⟩ "local" =
      LoginStep.runLoginFlow ⟨"local", "", "", "stdio", [], ["echo"], []⟩ ∧
    newOAuthClientKind ⟨"local", "", "", "stdio", [], ["echo"], []⟩ =
      ClientKind.streamableHttp := by
  exact ⟨rfl, rfl⟩

/-! ## Claim C9: parseSchema property ordering -/

/-- C9.  `parseSchema` returns the schema's property names in
lexicographically ascending order for every input, and on the literal
scenario input from the spec it returns `required=["query"]` and
`properties=["filter","limit","query"]`. -/
theorem C9_parseSchema_sorted_and_scenario :
    (∀ schema : InputSchema, List.Sorted strLeProp (parseSchema schema).2) ∧
    parseSchema ⟨["query"],
        [("query", ⟨"string", [], none, ""⟩), ("limit", ⟨"integer", [], none, ""⟩),
         ("filter", ⟨"string", [], none, ""⟩)]⟩ =
      (["query"], ["filter", "limit", "query"]) := by
  refine ⟨fun schema => sortStrings_sorted _, ?_⟩
  decide

/-- Witness for C9's universal part at a concrete unsorted schema. -/
theorem C9_parseSchema_sorted_witness :
    List.Sorted strLeProp
      (parseSchema ⟨["query"],
        [("query", ⟨"string", [], none, ""⟩), ("limit", ⟨"integer", [], none, ""⟩),
         ("filter", ⟨"string", [], none, ""⟩)]⟩).2 :=
  C9_parseSchema_sorted_and_scenario.1
    ⟨["query"],
     [("query", ⟨"string", [], none, ""⟩), ("limit", ⟨"integer", [], none, ""⟩),
      ("filter", ⟨"string", [], none, ""⟩)]⟩

/-! ## Claim C8: parseSchemaDetail ordering and required flags -/

/-- C8.  `parseSchemaDetail` returns the property details sorted
lexicographically ascending by name, and each detail's `required` flag is
true iff its name is a member of the supplied required list. -/
theorem C8_parseSchemaDetail_sorted_and_required :
    ∀ (schema : InputSchema) (requiredList : List String),
      List.Sorted (fun d e : PropertyDetail => strLeProp d.name e.name)
        (parseSchemaDetail schema requiredList) ∧
      ∀ d ∈ parseSchemaDetail schema requiredList,
        (d.required = true ↔ d.name ∈ requiredList) := by
  intro schema requiredList
  constructor
  · exact List.pairwise_map.mpr (sortStrings_sorted _)
  · intro d hd
    obtain ⟨k, _, rfl⟩ := List.mem_map.mp hd
    exact List.elem_iff

/-- Witness for C8 at the spec's literal scenario input: the detail list
for `{query, limit}` with `required=["query"]` is sorted by name, and the
`query` entry's required flag answers membership. -/
theorem C8_parseSchemaDetail_witness :
    List.Sorted (fun d e : PropertyDetail => strLeProp d.name e.name)
      (parseSchemaDetail
        ⟨[], [("query", ⟨"string", [], none, "Search query"⟩),
              ("limit", ⟨"integer", [], none, "Max results"⟩)]⟩ ["query"]) ∧
    ((⟨"query", "string", [], "", "Search query", true⟩ : PropertyDetail).required = true ↔
      (⟨"query", "string", [], "", "Search query", true⟩ : PropertyDetail).name ∈ ["query"]) :=
  ⟨(C8_parseSchemaDetail_sorted_and_required
      ⟨[], [("query", ⟨"string", [], none, "Search query"⟩),
            ("limit", ⟨"integer", [], none, "Max results"⟩)]⟩ ["query"]).1,
   (C8_parseSchemaDetail_sorted_and_required
      ⟨[], [("query", ⟨"string", [], none, "Search query"⟩),
            ("limit", ⟨"integer", [], none, "Max results"⟩)]⟩ ["query"]).2
     ⟨"query", "string", [], "", "Search query", true⟩ (by decide)⟩

/-! ## Claim C5: the OAuth fallback trigger -/

lemma hasAuthorizationHeader_eq_false_iff (headers : List (String × String)) :
    hasAuthorizationHeader headers = false ↔
      ∀ kv ∈ headers, canonicalHeaderKey kv.1 ≠ "Authorization" := by
  unfold hasAuthorizationHeader
  rw [← Bool.not_eq_true, List.any_eq_true]
  simp

/-- C5.  After a failed direct attempt (`err = some e`),
`runWithOAuthFallback` proceeds to the OAuth-wrapped retry iff the
transport is not "stdio", no configured header canonicalizes to
`Authorization`, and the error wraps the library's unauthorized sentinel;
in every other case the direct attempt's result and error are returned
unchanged. -/
theorem C5_oauth_fallback_iff :
    ∀ (T : Type) (s : MCPServer) (result : T) (e : GoError),
      (fallbackDecision s result (some e) = FallbackStep.retryWithOAuth ↔
        (s.transport ≠ "stdio" ∧
          (∀ kv ∈ s.headers, canonicalHeaderKey kv.1 ≠ "Authorization") ∧
          e.wrapsUnauthorized = true)) ∧
      (fallbackDecision s result (some e) = FallbackStep.retryWithOAuth ∨
        fallbackDecision s result (some e) = FallbackStep.finish result (some e)) := by
  intro T s result e
  have hmain : fallbackDecision s result (some e) = FallbackStep.retryWithOAuth ↔
      (s.transport ≠ "stdio" ∧ hasAuthorizationHeader s.headers = false ∧
        e.wrapsUnauthorized = true) := by
    unfold fallbackDecision shouldTryOAuthFallback
    by_cases h1 : s.transport = "stdio"
    · simp [h1]
    · by_cases h2 : hasAuthorizationHeader s.headers
      · simp [h1, h2]
      · by_cases h3 : e.wrapsUnauthorized
        · simp [h1, h2, h3]
        · simp [h1, h2, h3]
  constructor
  · rw [hmain, hasAuthorizationHeader_eq_false_iff]
  · by_cases h : fallbackDecision s result (some e) = FallbackStep.retryWithOAuth
    · exact Or.inl h
    · refine Or.inr ?_
      unfold fallbackDecision at h ⊢
      by_cases hc : (some e = none ∨ shouldTryOAuthFallback s (some e) = false)
      · rw [if_pos hc]
      · exact absurd (by rw [if_neg hc]) h

/-- Witness for C5 at concrete inputs: an http server with no headers and
an unauthorized-wrapping error retries through OAuth. -/
theorem C5_oauth_fallback_iff_witness :
    fallbackDecision ⟨"notion", "notion", "https://mcp.example/mcp", "http", [], [], []⟩
        () (some ⟨"request failed: unauthorized", true⟩) =
      FallbackStep.retryWithOAuth :=
  (C5_oauth_fallback_iff Unit
      ⟨"notion", "notion", "https://mcp.example/mcp", "http", [], [], []⟩
      () ⟨"request failed: unauthorized", true⟩).1.mpr
    ⟨by decide, by decide, rfl⟩

/-! ## Claim C6: OAuth callback parameter handling -/

/-- C6 counterexample.  The claim says a present `error` parameter always
fails the flow with "oauth authorization failed: ...".  The code checks
`code` first (oauth.go:280-286), so when the parameters carry both a code
and an error — state matching — the code is exchanged instead. -/
theorem C6_code_param_beats_error_param :
    completeOAuthFlowAuto [("state", "st"), ("code", "xyz"), ("error", "access_denied")]
        "st" "ver" =
      OAuthOutcome.exchange "xyz" "st" "ver" ∧
    completeOAuthFlowAuto [("state", "st"), ("code", "xyz"), ("error", "access_denied")]
        "st" "ver" ≠
      OAuthOutcome.failed ("oauth authorization failed: " ++ "access_denied") := by
  refine ⟨rfl, ?_⟩
  decide

/-- C6 as amended.  With the callback state matching, a non-empty `code`
parameter is exchanged using the PKCE verifier and state even if an
`error` parameter is also present; only when `code` is absent does a
present `error` parameter fail the flow with
"oauth authorization failed: ...", and with neither parameter the flow
fails with "oauth authorization did not return a code". -/
theorem C6_oauth_param_handling :
    ∀ (params : List (String × String)) (st verifier : String),
      getParam params "state" = st →
      ((getParam params "code" ≠ "" →
          completeOAuthFlowAuto params st verifier =
            OAuthOutcome.exchange (getParam params "code") st verifier) ∧
        (getParam params "code" = "" → getParam params "error" ≠ "" →
          completeOAuthFlowAuto params st verifier =
            OAuthOutcome.failed ("oauth authorization failed: " ++ getParam params "error")) ∧
        (getParam params "code" = "" → getParam params "error" = "" →
          completeOAuthFlowAuto params st verifier =
            OAuthOutcome.failed "oauth authorization did not return a code")) := by
  intro params st verifier hstate
  unfold completeOAuthFlowAuto finishOAuthParams
  rw [if_neg (by simp [hstate])]
  refine ⟨?_, ?_, ?_⟩
  · intro hcode
    rw [if_pos hcode]
  · intro hcode herr
    rw [if_neg (by simp [hcode]), if_pos herr]
  · intro hcode herr
    rw [if_neg (by simp [hcode]), if_neg (by simp [herr])]

/-- Witness for C6 at three concrete parameter sets, one per case. -/
theorem C6_oauth_param_handling_witness :
    completeOAuthFlowAuto [("state", "s1"), ("code", "c1")] "s1" "v1" =
      OAuthOutcome.exchange "c1" "s1" "v1" ∧
    completeOAuthFlowAuto [("state", "s2"), ("error", "denied")] "s2" "v2" =
      OAuthOutcome.failed ("oauth authorization failed: " ++ "denied") ∧
    completeOAuthFlowAuto [("state", "s3")] "s3" "v3" =
      OAuthOutcome.failed "oauth authorization did not return a code" :=
  ⟨(C6_oauth_param_handling [("state", "s1"), ("code", "c1")] "s1" "v1" (by decide)).1
      (by decide),
   (C6_oauth_param_handling [("state", "s2"), ("error", "denied")] "s2" "v2" (by decide)).2.1
      (by decide) (by decide),
   (C6_oauth_param_handling [("state", "s3")] "s3" "v3" (by decide)).2.2
      (by decide) (by decide)⟩

/-! ## Claim C3: history listing order and limit clamping -/

/-- C3 counterexample.  On a well-formed three-row table (ids 0,1,2 in
insertion order) filtered to server "notion", `ListHistory` returns the
matching rows oldest-first — ids `[0, 2]` — because the swap loop at the
end of `Store.ListHistory` reverses the `ORDER BY id DESC` result.  The
claimed most-recent-first order would be `[2, 0]`. -/
theorem C3_history_not_most_recent_first :
    idsAscending
      [⟨0, ⟨100, "notion", "search", [], true, "", 5⟩⟩,
       ⟨1, ⟨200, "github", "search", [], true, "", 5⟩⟩,
       ⟨2, ⟨300, "notion", "search", [], false, "boom", 7⟩⟩] ∧
    ListHistory
        [⟨0, ⟨100, "notion", "search", [], true, "", 5⟩⟩,
         ⟨1, ⟨200, "github", "search", [], true, "", 5⟩⟩,
         ⟨2, ⟨300, "notion", "search", [], false, "boom", 7⟩⟩] "notion" "" 50 =
      [⟨0, ⟨100, "notion", "search", [], true, "", 5⟩⟩,
       ⟨2, ⟨300, "notion", "search", [], false, "boom", 7⟩⟩] ∧
    ¬ mostRecentFirst
        (ListHistory
          [⟨0, ⟨100, "notion", "search", [], true, "", 5⟩⟩,
           ⟨1, ⟨200, "github", "search", [], true, "", 5⟩⟩,
           ⟨2, ⟨300, "notion", "search", [], false, "boom", 7⟩⟩] "notion" "" 50) := by
  refine ⟨by decide, by decide, by decide⟩

/-- C3 as amended.  The limit is clamped into [1, 500] with default 50
when the requested limit is not positive, and the returned rows are the
clamped-limit most recent matching rows — a suffix of the matching rows
of length `min eff matches` — but presented in ascending id order
(oldest-first, most-recent-last), not reverse-chronological. -/
theorem C3_history_clamp_and_order :
    ∀ (table : List HistoryRow) (serverFilter toolFilter : String) (limit : Int),
      idsAscending table →
      (1 ≤ clampLimit limit ∧ clampLimit limit ≤ 500 ∧
        (limit ≤ 0 → clampLimit limit = 50)) ∧
      idsAscending (ListHistory table serverFilter toolFilter limit) ∧
      (∃ pre, pre ++ ListHistory table serverFilter toolFilter limit =
          table.filter (historyMatches serverFilter toolFilter)) ∧
      (ListHistory table serverFilter toolFilter limit).length =
        min (clampLimit limit).toNat
          (table.filter (historyMatches serverFilter toolFilter)).length := by
  intro table sF tF limit h
  refine ⟨⟨?_, ?_, ?_⟩, ?_, ?_, ?_⟩
  · unfold clampLimit
    dsimp only
    split_ifs <;> omega
  · unfold clampLimit
    dsimp only
    split_ifs <;> omega
  · intro h0
    unfold clampLimit
    dsimp only
    split_ifs <;> omega
  · have h1 : idsAscending (table.filter (historyMatches sF tF)) :=
      h.sublist (List.filter_sublist table)
    have h2 : List.Pairwise (fun a b : HistoryRow => b.id < a.id)
        (table.filter (historyMatches sF tF)).reverse :=
      List.pairwise_reverse.mpr h1
    have h3 : List.Pairwise (fun a b : HistoryRow => b.id < a.id)
        (((table.filter (historyMatches sF tF)).reverse).take (clampLimit limit).toNat) :=
      h2.sublist (List.take_sublist _ _)
    exact List.pairwise_reverse.mpr h3
  · refine ⟨((table.filter (historyMatches sF tF)).reverse.drop
      (clampLimit limit).toNat).reverse, ?_⟩
    show _ ++ ((table.filter (historyMatches sF tF)).reverse.take
      (clampLimit limit).toNat).reverse = _
    rw [← List.reverse_append, List.take_append_drop, List.reverse_reverse]
  · show (((table.filter (historyMatches sF tF)).reverse.take
      (clampLimit limit).toNat).reverse).length = _
    rw [List.length_reverse, List.length_take, List.length_reverse]

/-- Witness for C3 as amended, at a concrete two-row table and an
over-limit request. -/
theorem C3_history_clamp_and_order_witness :
    idsAscending
      (ListHistory [⟨0, ⟨100, "n", "t", [], true, "", 5⟩⟩,
                    ⟨1, ⟨200, "n", "t", [], true, "", 5⟩⟩] "n" "" 700) ∧
    (ListHistory [⟨0, ⟨100, "n", "t", [], true, "", 5⟩⟩,
                  ⟨1, ⟨200, "n", "t", [], true, "", 5⟩⟩] "n" "" 700).length =
      min (clampLimit 700).toNat
        (([⟨0, ⟨100, "n", "t", [], true, "", 5⟩⟩,
           ⟨1, ⟨200, "n", "t", [], true, "", 5⟩⟩] : List HistoryRow).filter
          (historyMatches "n" "")).length :=
  ⟨(C3_history_clamp_and_order
      [⟨0, ⟨100, "n", "t", [], true, "", 5⟩⟩, ⟨1, ⟨200, "n", "t", [], true, "", 5⟩⟩]
      "n" "" 700 (by decide)).2.1,
   (C3_history_clamp_and_order
      [⟨0, ⟨100, "n", "t", [], true, "", 5⟩⟩, ⟨1, ⟨200, "n", "t", [], true, "", 5⟩⟩]
      "n" "" 700 (by decide)).2.2.2⟩

/-! ## Claim C4: one history row per call action -/

/-- C4 counterexample.  A `call` request with an empty `server` field is
rejected by the validation at the top of the branch (server.go:171-173)
*before* the history insert, so zero rows are written for it — not
exactly one row as claimed for validation failures. -/
theorem C4_call_validation_failure_writes_no_row :
    (handleCall ⟨"call", "", "", "search", 0, "", "", "", [], [], [], []⟩ none 0 0).2 = [] ∧
    (handleCall ⟨"call", "", "", "search", 0, "", "", "", [], [], [], []⟩ none 0 0).1 =
      ⟨false, "server and tool are required", ""⟩ :=
  ⟨rfl, rfl⟩

/-- C4 as amended.  For every `call` request that passes the
server-and-tool-required validation, exactly one history row is written,
with `success = true` iff `Registry.Call` returned no error, `error` set
to the error message on failure, `at` the start instant, and
`duration_ms ≥ 0` (the completion instant is not before the start, as
guaranteed by Go's monotonic clock). -/
theorem C4_call_single_history_row :
    ∀ (req : Request) (callErr : Option String) (t0 t1 : Nat),
      req.server ≠ "" → req.tool ≠ "" → t0 ≤ t1 →
      ∃ item : HistoryItem,
        (handleCall req callErr t0 t1).2 = [item] ∧
        (item.success = true ↔ callErr = none) ∧
        ((handleCall req callErr t0 t1).1.ok = true ↔ callErr = none) ∧
        item.error = callErr.getD "" ∧
        item.atTime = t0 ∧ item.server = req.server ∧ item.tool = req.tool ∧
        0 ≤ item.durationMs := by
  intro req callErr t0 t1 hs ht hle
  have hdur : 0 ≤ Int.tdiv ((t1 : Int) - (t0 : Int)) 1000000 :=
    Int.tdiv_nonneg (by omega) (by norm_num)
  unfold handleCall
  rw [if_neg (by simp [hs, ht])]
  cases callErr with
  | none =>
    exact ⟨_, rfl, by simp, by simp, by simp, rfl, rfl, rfl, hdur⟩
  | some e =>
    exact ⟨_, rfl, by simp, by simp, by simp, rfl, rfl, rfl, hdur⟩

/-- Witness for C4 as amended, at a concrete failing call. -/
theorem C4_call_single_history_row_witness :
    ((handleCall ⟨"call", "", "notion", "search", 0, "", "", "", [], [], [],
        [("query", JsonVal.str "roadmap")]⟩ (some "boom") 100 5000100).2).length = 1 ∧
    ((handleCall ⟨"call", "", "notion", "search", 0, "", "", "", [], [], [],
        [("query", JsonVal.str "roadmap")]⟩ (some "boom") 100 5000100).1.ok = true ↔
      (some "boom" : Option String) = none) := by
  obtain ⟨item, h1, _, h3, _⟩ :=
    C4_call_single_history_row
      ⟨"call", "", "notion", "search", 0, "", "", "", [], [], [],
        [("query", JsonVal.str "roadmap")]⟩ (some "boom") 100 5000100
      (by decide) (by decide) (by omega)
  exact ⟨by rw [h1]; rfl, h3⟩

/-! ## Claim C10: add_server coerces an unrecognized transport to http -/

/-- True iff `normalizeTransport` rejects the value, i.e. the value is
not one of the recognized transports after trimming and lowercasing. -/
def isUnsupportedTransport (v : String) : Bool :=
  match normalizeTransport v with
  | .ok _ => false
  | .error _ => true

/-- First server with the given name, as the validation and lookup loops
iterate. -/
def findByName (servers : List MCPServer) (n : String) : Option MCPServer :=
  servers.find? (fun s => s.name = n)

lemma findByName_upsert (servers : List MCPServer) (item : MCPServer) :
    findByName (upsertIntoList servers item) item.name = some item := by
  induction servers with
  | nil =>
    simp [upsertIntoList, findByName]
  | cons s rest ih =>
    unfold upsertIntoList
    by_cases hs : s.name = item.name
    · rw [if_pos hs]
      simp [findByName]
    · rw [if_neg hs]
      unfold findByName at ih ⊢
      rw [List.find?_cons_of_neg _ (by simp [hs])]
      exact ih

lemma exists_error_of_isUnsupportedTransport {v : String}
    (h : isUnsupportedTransport v = true) :
    ∃ msg, normalizeTransport v = .error msg := by
  unfold isUnsupportedTransport at h
  cases hnt : normalizeTransport v with
  | ok t => rw [hnt] at h; simp at h
  | error msg => exact ⟨msg, rfl⟩

lemma UpsertServer_unknown_transport (cfg : Config) (item : MCPServer)
    (h : isUnsupportedTransport item.transport = true) :
    ∃ s', findByName (UpsertServer cfg item).servers item.name = some s' ∧
      s'.transport = "http" ∧ s'.url = item.url := by
  obtain ⟨msg, hmsg⟩ := exists_error_of_isUnsupportedTransport h
  unfold UpsertServer
  rw [hmsg]
  dsimp only
  by_cases ha : item.aliasName = ""
  · rw [if_pos ha]
    exact ⟨_, findByName_upsert _ _, rfl, rfl⟩
  · rw [if_neg ha]
    exact ⟨_, findByName_upsert _ _, rfl, rfl⟩

/-- C10.  An `add_server` request whose transport string is not a
recognized value after trimming and lowercasing, together with a
non-empty url (and a name, which the branch requires), passes the
branch's validation — which only distinguishes "stdio" from everything
else — and `UpsertServer` silently coerces the stored transport to
"http" rather than propagating the normalizer's error: provided the
config save succeeds, the request reports success and the registered
server has transport "http". -/
theorem C10_add_server_coerces_unknown_transport :
    ∀ (env : String → String) (defaults : ServerConfig) (cfg : Config) (req : Request),
      req.name ≠ "" →
      isUnsupportedTransport (goToLower (goTrimSpace req.transport)) = true →
      req.url ≠ "" →
      (∃ c, Save env defaults (UpsertServer cfg (addServerItem req)) = .ok c) →
      (handleAddServer env defaults cfg req).1.ok = true ∧
      (handleAddServer env defaults cfg req).1.error = "" ∧
      (∃ s', findByName (handleAddServer env defaults cfg req).2.servers req.name = some s' ∧
        s'.transport = "http" ∧ s'.url = req.url) := by
  intro env defaults cfg req hname htrans hurl hsave
  have hstdio : ¬ goToLower (goTrimSpace req.transport) = "stdio" := by
    intro hx
    rw [hx] at htrans
    exact absurd htrans (by decide)
  obtain ⟨c, hc⟩ := hsave
  have hup := UpsertServer_unknown_transport cfg (addServerItem req) htrans
  unfold handleAddServer
  rw [if_neg hname]
  dsimp only
  rw [if_neg (by simp [hstdio]), if_neg (by simp [hurl]), hc]
  exact ⟨rfl, rfl, hup⟩

/-- Witness for C10 at a concrete request with transport "WebSocket ". -/
theorem C10_add_server_coerces_unknown_transport_witness :
    (handleAddServer (fun _ => "") ⟨"sock", "db"⟩ ⟨⟨"sock", "db"⟩, []⟩
        ⟨"add_server", "x", "", "", 0, "", "http://e", "WebSocket ", [], [], [], []⟩).1.ok =
      true ∧
    (∃ s', findByName
        (handleAddServer (fun _ => "") ⟨"sock", "db"⟩ ⟨⟨"sock", "db"⟩, []⟩
          ⟨"add_server", "x", "", "", 0, "", "http://e", "WebSocket ", [], [], [], []⟩).2.servers
        "x" = some s' ∧ s'.transport = "http" ∧ s'.url = "http://e") := by
  have h := C10_add_server_coerces_unknown_transport (fun _ => "") ⟨"sock", "db"⟩
    ⟨⟨"sock", "db"⟩, []⟩
    ⟨"add_server", "x", "", "", 0, "", "http://e", "WebSocket ", [], [], [], []⟩
    (by decide) (by decide) (by decide)
    ⟨⟨⟨"sock", "db"⟩, [⟨"x", "x", "http://e", "http", [], [], []⟩]⟩, by decide⟩
  exact ⟨h.1, h.2.2⟩

/-! ## Claim C7: config save/load round trip -/

/-- The transformation the claim's words describe — alias defaulting and
transport normalization only.  Follows the spec's phrase "a configuration
equal to cfg after alias defaulting and transport normalization"; used
solely to compare the claimed round-trip result with the source-derived
one. -/
def aliasTransportNormalize (cfg : Config) : Config :=
  { cfg with
    servers := cfg.servers.map (fun s =>
      { s with
        aliasName := if s.aliasName = "" then s.name else s.aliasName
        transport :=
          match normalizeTransport s.transport with
          | .ok t => t
          | .error _ => s.transport }) }

/-- C7 counterexample.  A valid config whose url contains a `$VAR`
reference (with `VAR` unset) round-trips to a *different* config: `Load`
expands `$X` to the empty string, so the result is not the input after
alias defaulting and transport normalization (which here is the input
itself, its alias and transport already being in normal form). -/
theorem C7_roundtrip_counterexample :
    saveThenLoad (fun _ => "") ⟨"sock", "db"⟩
        ⟨⟨"sock", "db"⟩, [⟨"a", "a", "http://h$X/", "http", [], [], []⟩]⟩ =
      .ok ⟨⟨"sock", "db"⟩, [⟨"a", "a", "http://h/", "http", [], [], []⟩]⟩ ∧
    aliasTransportNormalize
        ⟨⟨"sock", "db"⟩, [⟨"a", "a", "http://h$X/", "http", [], [], []⟩]⟩ =
      ⟨⟨"sock", "db"⟩, [⟨"a", "a", "http://h$X/", "http", [], [], []⟩]⟩ ∧
    saveThenLoad (fun _ => "") ⟨"sock", "db"⟩
        ⟨⟨"sock", "db"⟩, [⟨"a", "a", "http://h$X/", "http", [], [], []⟩]⟩ ≠
      .ok (aliasTransportNormalize
        ⟨⟨"sock", "db"⟩, [⟨"a", "a", "http://h$X/", "http", [], [], []⟩]⟩) := by
  refine ⟨by decide, by decide, by decide⟩

lemma loadServer_id (env : String → String) (s : MCPServer)
    (h1 : osExpandEnv env s.url = s.url)
    (h2 : s.headers.map (fun kv => (kv.1, osExpandEnv env kv.2)) = s.headers)
    (h3 : s.command.map (osExpandEnv env) = s.command)
    (h4 : s.env.map (osExpandEnv env) = s.env)
    (h5 : normalizeTransport s.transport = .ok s.transport)
    (h6 : s.aliasName ≠ "") :
    loadServer env s = .ok s := by
  unfold loadServer
  dsimp only
  rw [h5]
  dsimp only
  rw [h1, h2, h3, h4, if_neg h6]

lemma loadServerList_id (env : String → String) :
    ∀ servers : List MCPServer,
      (∀ s ∈ servers,
        osExpandEnv env s.url = s.url ∧
        s.headers.map (fun kv => (kv.1, osExpandEnv env kv.2)) = s.headers ∧
        s.command.map (osExpandEnv env) = s.command ∧
        s.env.map (osExpandEnv env) = s.env ∧
        normalizeTransport s.transport = .ok s.transport ∧
        s.aliasName ≠ "") →
      loadServerList env servers = .ok servers
  | [], _ => rfl
  | s :: rest, h => by
    have hs := h s (List.mem_cons_self s rest)
    have hrest := loadServerList_id env rest (fun x hx => h x (List.mem_cons_of_mem s hx))
    unfold loadServerList
    rw [loadServer_id env s hs.1 hs.2.1 hs.2.2.1 hs.2.2.2.1 hs.2.2.2.2.1 hs.2.2.2.2.2, hrest]

lemma Load_id (env : String → String) (defaults : ServerConfig) (cfg : Config)
    (hsock : cfg.server.socketPath ≠ "") (hdb : cfg.server.dbPath ≠ "")
    (hservers : ∀ s ∈ cfg.servers,
      osExpandEnv env s.url = s.url ∧
      s.headers.map (fun kv => (kv.1, osExpandEnv env kv.2)) = s.headers ∧
      s.command.map (osExpandEnv env) = s.command ∧
      s.env.map (osExpandEnv env) = s.env ∧
      normalizeTransport s.transport = .ok s.transport ∧
      s.aliasName ≠ "")
    (hval : validate cfg = .ok ()) :
    Load env defaults cfg = .ok cfg := by
  unfold Load
  dsimp only
  rw [loadServerList_id env cfg.servers hservers]
  dsimp only
  rw [if_neg hsock, if_neg hdb]
  have heta : (⟨⟨cfg.server.socketPath, cfg.server.dbPath⟩, cfg.servers⟩ : Config) = cfg := rfl
  rw [heta, hval]

/-- C7 as amended.  `Save` then `Load` yields the configuration equal to
the input after alias defaulting, transport normalization, defaulting of
empty socket/db paths, *and* environment-variable expansion of the url,
header values, command and env strings.  The round trip is the identity
exactly on configs already in that normal form: valid, with non-empty
paths and aliases, normalized transports, and strings that environment
expansion leaves unchanged (in particular containing no `$`
references). -/
theorem C7_roundtrip_identity_modulo_load_transforms :
    ∀ (env : String → String) (defaults : ServerConfig) (cfg : Config),
      validate cfg = .ok () →
      cfg.server.socketPath ≠ "" →
      cfg.server.dbPath ≠ "" →
      (∀ s ∈ cfg.servers,
        osExpandEnv env s.url = s.url ∧
        s.headers.map (fun kv => (kv.1, osExpandEnv env kv.2)) = s.headers ∧
        s.command.map (osExpandEnv env) = s.command ∧
        s.env.map (osExpandEnv env) = s.env ∧
        normalizeTransport s.transport = .ok s.transport ∧
        s.aliasName ≠ "") →
      saveThenLoad env defaults cfg = .ok cfg := by
  intro env defaults cfg hval hsock hdb hservers
  have hload := Load_id env defaults cfg hsock hdb hservers hval
  unfold saveThenLoad Save
  rw [hval, hload]
  dsimp only
  exact hload

/-- Witness for C7 as amended, at a concrete dollar-free config. -/
theorem C7_roundtrip_identity_witness :
    saveThenLoad (fun _ => "") ⟨"S", "D"⟩
        ⟨⟨"sock", "db"⟩,
         [⟨"a", "short", "http://h/mcp", "http", [("X-Key", "v")], [], []⟩,
          ⟨"b", "b", "", "stdio", [], ["echo", "hi"], ["K=V"]⟩]⟩ =
      .ok ⟨⟨"sock", "db"⟩,
         [⟨"a", "short", "http://h/mcp", "http", [("X-Key", "v")], [], []⟩,
          ⟨"b", "b", "", "stdio", [], ["echo", "hi"], ["K=V"]⟩]⟩ :=
  C7_roundtrip_identity_modulo_load_transforms (fun _ => "") ⟨"S", "D"⟩
    ⟨⟨"sock", "db"⟩,
     [⟨"a", "short", "http://h/mcp", "http", [("X-Key", "v")], [], []⟩,
      ⟨"b", "b", "", "stdio", [], ["echo", "hi"], ["K=V"]⟩]⟩
    (by decide) (by decide) (by decide) (by decide)

end Mcpshim
